import Mathlib

/-
Verification development for the Communications Agent service.

The definitions below are shallow embeddings, translated from the Python
sources of the repository:

  * src/tools/case_lookup.py        (IntelligentCaseLookupTool)
  * src/services/token_manager.py   (TokenManager)
  * src/services/streaming_coordinator.py (StreamingCoordinator)
  * src/services/backend_api.py     (get_or_create_conversation)

Python strings are modelled as `List Char`, Python floats as `Rat`
(the float comparisons appearing in the code compare correctly-rounded
small rationals against the literals 0.7 / 0.9 / 0.3, where the rational
and floating comparison orders agree for the string lengths that can
occur), Python exceptions as `Except`, and the cooperative-concurrency
parts as explicit state passing over coordinator states.
-/

namespace CommsAgent

/-! ### Python string helpers -/

/-- Characters treated as whitespace by Python `str.strip()`. -/
def pyIsSpace (c : Char) : Bool :=
  c == ' ' || c == '\t' || c == '\n' || c == '\r' || c == Char.ofNat 11 || c == Char.ofNat 12

/-- Python `str.strip()`: drop leading and trailing whitespace. -/
def pyStrip (s : List Char) : List Char :=
  ((s.dropWhile pyIsSpace).reverse.dropWhile pyIsSpace).reverse

/-- Python `str.lower()` (ASCII model; the client names handled by the
service are ASCII). -/
def pyLower (s : List Char) : List Char :=
  s.map Char.toLower

/-! ### difflib.SequenceMatcher ratio

Model of `difflib.SequenceMatcher(None, a, b).ratio()` from the Python
standard library, which `_calculate_name_similarity` falls back to.
`isjunk` is `None` at the call site, so the junk set is empty and the two
junk-extension loops of `find_longest_match` never fire; they are omitted.
The autojunk rule (popular elements of `b` are dropped from `b2j` when
`len(b) >= 200`) is kept. -/

/-- Element of a list at an index (all indexing in the algorithm is in
range, so a default total read is faithful). -/
def getC (l : List Char) (i : Nat) : Char :=
  l.getD i (Char.ofNat 0)

/-- Model of `b2j[c]`: indices of occurrences of `c` in `b`, ascending, with the
autojunk purge of popular elements. -/
def b2j (b : List Char) (c : Char) : List Nat :=
  let idxs := (List.range b.length).filter (fun j => getC b j == c)
  if b.length ≥ 200 && idxs.length > b.length / 100 + 1 then [] else idxs

/-- Read of the `j2len` working dictionary with default 0. -/
def lookupD (m : List (Nat × Nat)) (k : Nat) : Nat :=
  (((m.find? (fun p => p.1 == k)).map Prod.snd)).getD 0

/-- Inner loop of `find_longest_match` over the candidate `j` positions of
row `i` (with the `continue` below `blo` and the `break` at `bhi`).
Returns the new `j2len` row and the updated best `(i, j, size)`. -/
def flmInner (blo bhi i : Nat) (j2len : List (Nat × Nat)) :
    List Nat → List (Nat × Nat) → Nat × Nat × Nat → List (Nat × Nat) × (Nat × Nat × Nat)
  | [], newj2len, best => (newj2len, best)
  | j :: js, newj2len, best =>
    if j < blo then flmInner blo bhi i j2len js newj2len best
    else if j ≥ bhi then (newj2len, best)
    else
      -- Python reads j2len.get(j-1, 0); at j = 0 the key is -1, which is
      -- never present, so the read yields the default 0 (a Nat-clamped
      -- j - 1 would wrongly read key 0 of the previous row instead).
      let k := (if j == 0 then 0 else lookupD j2len (j - 1)) + 1
      let newj2len2 := (j, k) :: newj2len
      let best2 := if k > best.2.2 then (i + 1 - k, j + 1 - k, k) else best
      flmInner blo bhi i j2len js newj2len2 best2

/-- Outer loop of `find_longest_match` over rows `i = alo .. ahi-1`. -/
def flmRows (a b : List Char) (blo bhi : Nat) :
    Nat → Nat → List (Nat × Nat) → Nat × Nat × Nat → Nat × Nat × Nat
  | 0, _, _, best => best
  | fuel + 1, i, j2len, best =>
    let r := flmInner blo bhi i j2len (b2j b (getC a i)) [] best
    flmRows a b blo bhi fuel (i + 1) r.1 r.2

/-- Backward extension loop (`while besti > alo and bestj > blo and
a[besti-1] == b[bestj-1]`); the junk set is empty. -/
def extendBack (a b : List Char) (alo blo : Nat) :
    Nat → Nat × Nat × Nat → Nat × Nat × Nat
  | 0, best => best
  | fuel + 1, (besti, bestj, size) =>
    if alo < besti && blo < bestj && (getC a (besti - 1) == getC b (bestj - 1)) then
      extendBack a b alo blo fuel (besti - 1, bestj - 1, size + 1)
    else (besti, bestj, size)

/-- Forward extension loop (`while besti+bestsize < ahi and ...`). -/
def extendFwd (a b : List Char) (ahi bhi : Nat) :
    Nat → Nat × Nat × Nat → Nat × Nat × Nat
  | 0, best => best
  | fuel + 1, (besti, bestj, size) =>
    if besti + size < ahi && bestj + size < bhi &&
        (getC a (besti + size) == getC b (bestj + size)) then
      extendFwd a b ahi bhi fuel (besti, bestj, size + 1)
    else (besti, bestj, size)

/-- Model of `SequenceMatcher.find_longest_match` over the window
`a[alo:ahi]`, `b[blo:bhi]`. -/
def findLongestMatch (a b : List Char) (alo ahi blo bhi : Nat) : Nat × Nat × Nat :=
  let best := flmRows a b blo bhi (ahi - alo) alo [] (alo, blo, 0)
  let best2 := extendBack a b alo blo best.1 best
  extendFwd a b ahi bhi (ahi - (best2.1 + best2.2.2)) best2

/-- Sum of the sizes of all matching blocks (the recursive split of
`get_matching_blocks`; only the size sum feeds `ratio`). -/
def matchSum (a b : List Char) : Nat → Nat → Nat → Nat → Nat → Nat
  | 0, _, _, _, _ => 0
  | fuel + 1, alo, ahi, blo, bhi =>
    let r := findLongestMatch a b alo ahi blo bhi
    if r.2.2 == 0 then 0
    else
      matchSum a b fuel alo r.1 blo r.2.1 + r.2.2 +
        matchSum a b fuel (r.1 + r.2.2) ahi (r.2.1 + r.2.2) bhi

/-- Model of `SequenceMatcher(None, a, b).ratio() = 2*M / (len(a)+len(b))`,
and 1.0 when both strings are empty. -/
def ratioOf (a b : List Char) : Rat :=
  if a.length + b.length == 0 then 1
  else
    mkRat (2 * (matchSum a b (a.length + 1) 0 a.length 0 b.length) : Nat)
      (a.length + b.length)

/-! ### IntelligentCaseLookupTool (src/tools/case_lookup.py)

The scoring / classification step of the disambiguation algorithm is a
pure function of the search name and the candidate list fetched from the
backend; the backend fetch itself is the separate I/O step and is not part
of these definitions. -/

/-- A case record as returned by the backend search: the fields that the
disambiguation algorithm reads. `client_email` / `client_phone` are
`none` when missing from the record; Python truthiness additionally
treats an empty string as absent. -/
structure Case where
  case_id : String
  client_name : List Char
  client_email : Option (List Char)
  client_phone : Option (List Char)
deriving DecidableEq

/-- Python truthiness of `match.get(field)`. -/
def truthyOpt : Option (List Char) → Bool
  | Option.none => false
  | Option.some s => !s.isEmpty

/-- Model of `IntelligentCaseLookupTool._calculate_name_similarity`: exact match
fast path 1.0, substring fast path 0.9, otherwise the sequence-matcher
ratio. -/
def calculate_name_similarity (search_name case_name : List Char) : Rat :=
  let s := pyStrip (pyLower search_name)
  let c := pyStrip (pyLower case_name)
  if s == c then 1
  else if decide (s <:+: c) || decide (c <:+: s) then mkRat 9 10
  else ratioOf s c

/-- The clarification strategy returned by
`_generate_clarification_strategy`: a message and suggested questions. -/
structure Strategy where
  message : String
  questions : List String
deriving DecidableEq

/-- ASCII apostrophe, written via its code point. -/
def sq : String := (Char.ofNat 39).toString

def q_client_full_name : String := ("What is the client") ++ sq ++ ("s full name?")

def q_last_name : String := ("What is their last name?")

def q_email_or_phone : String := ("Do you have their email or phone number?")

def q_email_address : String := ("What is their email address?")

def q_phone_number : String := ("What is their phone number?")

def q_full_name : String := ("What is their full name?")

def q_contact_info : String := ("Do you have their contact information?")

def q_created_when : String := ("When was this case created approximately?")

/-- The "similar names" question set of the strategy generator. -/
def similarNamesQuestions : List String :=
  [q_client_full_name, q_last_name, q_email_or_phone]

/-- The contact-details question set of the strategy generator. -/
def contactDetailsQuestions : List String :=
  [q_email_address, q_phone_number, q_full_name]

/-- The generic question set of the strategy generator. -/
def genericQuestions : List String :=
  [q_full_name, q_contact_info, q_created_when]

/-- Model of `IntelligentCaseLookupTool._generate_clarification_strategy`. The
input is the already-scored candidate list (case together with its
`similarity_score`). -/
def generate_clarification_strategy (search_name : List Char)
    (ms : List (Case × Rat)) : Strategy :=
  let has_emails := ms.any (fun m => truthyOpt m.1.client_email)
  let has_phones := ms.any (fun m => truthyOpt m.1.client_phone)
  let similar_names := (ms.filter
      (fun m => decide (calculate_name_similarity search_name m.1.client_name > mkRat 7 10))).map
    (fun m => m.1.client_name)
  if similar_names.length > 1 then
    { message := ("I found ") ++ (toString ms.length) ++
        (" clients with similar names to ") ++ sq ++ (String.mk search_name) ++ sq ++
        (". Could you provide the full name or last name to help me identify the correct case?"),
      questions := similarNamesQuestions }
  else if has_phones && has_emails then
    { message := ("I found ") ++ (toString ms.length) ++ (" clients named ") ++
        sq ++ (String.mk search_name) ++ sq ++
        (". Could you provide additional information to identify the correct case?"),
      questions := contactDetailsQuestions }
  else
    { message := ("I found ") ++ (toString ms.length) ++ (" cases that could match ") ++
        sq ++ (String.mk search_name) ++ sq ++
        (". Could you provide more details to help identify the correct case?"),
      questions := genericQuestions }

/-- Result of `_analyze_confidence`, mirroring the three dictionary
shapes it can return. -/
inductive ConfidenceResult where
  | noMatches (confidence : Nat)
  | proceed (confidence : Nat) (c : Case)
  | clarify (confidence : Nat) (ms : List (Case × Rat))
      (clarification_message : String) (suggested_questions : List String)
deriving DecidableEq

/-- Model of `IntelligentCaseLookupTool._analyze_confidence`. -/
def analyze_confidence (search_name : List Char) (cases : List Case) : ConfidenceResult :=
  match cases with
  | [] => ConfidenceResult.noMatches 0
  | [c] =>
    let similarity := calculate_name_similarity search_name c.client_name
    if similarity ≥ mkRat 9 10 then ConfidenceResult.proceed 100 c
    else if similarity ≥ mkRat 7 10 then ConfidenceResult.proceed 85 c
    else ConfidenceResult.proceed 70 c
  | _ =>
    let scored_matches := cases.map
      (fun c => (c, calculate_name_similarity search_name c.client_name))
    let sorted := scored_matches.mergeSort (fun x y => decide (y.2 ≤ x.2))
    let strat := generate_clarification_strategy search_name sorted
    ConfidenceResult.clarify 40 (sorted.take 5) strat.message strat.questions

/-! ### TokenManager (src/services/token_manager.py)

Message content objects are arbitrary JSON-ish Python values; `PyVal`
models them. A Python `dict` is modelled as an association list in which
the first occurrence of a key is the binding (a real Python dict never
holds duplicate keys; `dedupKeys` realizes iteration over such a list).
Operations that raise `TypeError` in Python (`len` of an int, list + str)
are modelled with `Except`. -/

inductive PyVal where
  | str (s : List Char)
  | int (n : Int)
  | bool (b : Bool)
  | none
  | list (xs : List PyVal)
  | dict (kvs : List (String × PyVal))

/-- First-occurrence lookup in a modelled dict (`content[key]` /
`content.get(key)`). -/
def lookup1 (kvs : List (String × PyVal)) (k : String) : Option PyVal :=
  ((kvs.find? (fun kv => kv.1 == k)).map Prod.snd)

/-- Test of `key in d` on a modelled dict. -/
def hasKey (kvs : List (String × PyVal)) (k : String) : Bool :=
  kvs.any (fun kv => kv.1 == k)

/-- Iteration order of a modelled dict: first occurrence of each key. -/
def dedupKeys : List (String × PyVal) → List (String × PyVal)
  | [] => []
  | kv :: rest => kv :: dedupKeys (rest.filter (fun kv2 => kv2.1 != kv.1))
termination_by l => l.length
decreasing_by
  simp only [List.length_cons]
  exact Nat.lt_succ_of_le (List.length_filter_le _ _)

/-- ASCII double quote. -/
def dq : String := (Char.ofNat 34).toString

/-- Python escaping of one character inside a `repr`ed string literal
(printable-ASCII model: backslash, the chosen quote, and the common
control characters). -/
def escapeIn (quote : Char) (c : Char) : List Char :=
  if c == '\\' then ['\\', '\\']
  else if c == quote then ['\\', quote]
  else if c == '\n' then ['\\', 'n']
  else if c == '\r' then ['\\', 'r']
  else if c == '\t' then ['\\', 't']
  else [c]

/-- Python `repr` of a string: single-quoted, unless the string contains
a single quote and no double quote. -/
def reprChars (s : List Char) : List Char :=
  let quote := if s.contains (Char.ofNat 39) && !(s.contains (Char.ofNat 34))
    then (Char.ofNat 34) else (Char.ofNat 39)
  quote :: (s.map (escapeIn quote)).flatten ++ [quote]

/-- Python rendering of an integer. -/
def intChars (n : Int) : List Char :=
  (toString n).data

mutual
/-- Python `repr` of a modelled value (which is also `str` for every
value other than a top-level string). -/
def pyRepr : PyVal → List Char
  | PyVal.str s => reprChars s
  | PyVal.int n => intChars n
  | PyVal.bool b => if b then ("True").data else ("False").data
  | PyVal.none => ("None").data
  | PyVal.list xs => '[' :: pyReprList xs ++ [']']
  | PyVal.dict kvs => Char.ofNat 123 :: pyReprDict kvs ++ [Char.ofNat 125]

/-- Comma-separated `repr`s of list elements. -/
def pyReprList : List PyVal → List Char
  | [] => []
  | [x] => pyRepr x
  | x :: xs => pyRepr x ++ [',', ' '] ++ pyReprList xs

/-- Comma-separated `key: value` `repr`s of dict entries. -/
def pyReprDict : List (String × PyVal) → List Char
  | [] => []
  | [kv] => reprChars kv.1.data ++ [':', ' '] ++ pyRepr kv.2
  | kv :: kvs => reprChars kv.1.data ++ [':', ' '] ++ pyRepr kv.2 ++ [',', ' '] ++ pyReprDict kvs
end

/-- Python `str` of a modelled value: the string itself for strings,
`repr` otherwise. -/
def pyStr : PyVal → List Char
  | PyVal.str s => s
  | v => pyRepr v

/-- The ellipsis appended by every truncation in the compressor. -/
def ellipsis : List Char := (".").data ++ (".").data ++ (".").data

/-- The `TypeError` messages are not inspected anywhere; a fixed text
stands for them. -/
def pyTypeError : String := ("TypeError")

/-- The `text` branch of `_compress_message_content`: `len(text)` and
`text[:300] + "..."` on an arbitrary value, with the `TypeError`s Python
would raise (`len` of a scalar; `list[:300] + str`; slicing a dict). -/
def compressTextVal : PyVal → Except String PyVal
  | PyVal.str s =>
    Except.ok (PyVal.str (if s.length > 300 then s.take 300 ++ ellipsis else s))
  | PyVal.list xs =>
    if xs.length > 300 then Except.error pyTypeError else Except.ok (PyVal.list xs)
  | PyVal.dict kvs =>
    if (dedupKeys kvs).length > 300 then Except.error pyTypeError
    else Except.ok (PyVal.dict kvs)
  | _ => Except.error pyTypeError

/-- The metadata allow-list preserved verbatim by the compressor. -/
def preserve_keys : List String :=
  ["stage", "message_type", "reasoning", "planned_action",
   "execution_time_ms", "success", "error_message"]

/-- The `preserve_keys` loop: copy each present allow-listed key. -/
def preserveLoop (src : List (String × PyVal)) :
    List String → List (String × PyVal) → List (String × PyVal)
  | [], acc => acc
  | k :: ks, acc =>
    match lookup1 src k with
    | Option.some v => preserveLoop src ks (acc ++ [(k, v)])
    | Option.none => preserveLoop src ks acc

/-- Is the value a dict or a list (`isinstance(value, (dict, list))`)? -/
def isContainer : PyVal → Bool
  | PyVal.dict _ => true
  | PyVal.list _ => true
  | _ => false

/-- The final loop of the compressor over `content.items()`: truncate
large nested containers, drop small ones, pass scalars through. -/
def otherLoop : List (String × PyVal) → List (String × PyVal) → List (String × PyVal)
  | acc, [] => acc
  | acc, kv :: items =>
    if hasKey acc kv.1 || kv.1 == "text" then otherLoop acc items
    else if isContainer kv.2 then
      if (pyRepr kv.2).length > 100 then
        otherLoop (acc ++ [(kv.1, PyVal.str ((pyRepr kv.2).take 100 ++ ellipsis))]) items
      else otherLoop acc items
    else otherLoop (acc ++ [(kv.1, kv.2)]) items

/-- Model of `TokenManager._compress_message_content`. -/
def compress_message_content (content : PyVal) : Except String PyVal :=
  match content with
  | PyVal.dict kvs =>
    (match lookup1 kvs ("text") with
     | Option.some t => (compressTextVal t).map (fun t2 => [(("text" : String), t2)])
     | Option.none => Except.ok []).map
      (fun c1 => PyVal.dict (otherLoop (preserveLoop kvs preserve_keys c1) (dedupKeys kvs)))
  | v =>
    let s := pyStr v
    Except.ok (PyVal.dict
      [(("text" : String), PyVal.str (if s.length > 200 then s.take 200 ++ ellipsis else s))])

/-! #### optimize_conversation_context

The two backend calls (`get_message_count`, `create_auto_summary`) are
the I/O collaborators; they are passed in as `Except`-valued arguments so
that every possible downstream outcome (a value, or a raised exception
carrying a message) is quantified over. The body below mirrors the
`try`/`except` structure of the Python method. -/

/-- Result payload of `create_auto_summary` as read by the optimizer. -/
structure SummaryResult where
  summary_id : Option String
  tokens_saved : Nat

/-- The report dictionary returned by `optimize_conversation_context`. -/
structure OptimizeReport where
  conversation_id : String
  message_count : Option Nat
  action_taken : String
  tokens_saved : Nat
  summary_created : Bool
  messages_summarized : Option Nat
  messages_kept : Option Nat
  summary_id : Option String
  error : Option String
deriving DecidableEq

/-- Model of `TokenManager.optimize_conversation_context` with
`max_context_messages`/`summary_threshold` from the manager and the two
backend calls passed as oracles. -/
def optimize_conversation_context (max_context_messages summary_threshold : Nat)
    (conversation_id : String) (force_summary : Bool)
    (get_message_count : Except String Nat)
    (create_auto_summary : Nat → Except String SummaryResult) : OptimizeReport :=
  match get_message_count with
  | Except.error e =>
    { conversation_id := conversation_id, message_count := Option.none,
      action_taken := ("error"), tokens_saved := 0, summary_created := false,
      messages_summarized := Option.none, messages_kept := Option.none,
      summary_id := Option.none, error := Option.some e }
  | Except.ok message_count =>
    let should_summarize := force_summary || message_count > max_context_messages
    if should_summarize then
      let messages_to_keep := min 10 (message_count / 3)
      let messages_to_summarize := max summary_threshold (message_count - messages_to_keep)
      match create_auto_summary messages_to_summarize with
      | Except.error e =>
        { conversation_id := conversation_id, message_count := Option.none,
          action_taken := ("error"), tokens_saved := 0, summary_created := false,
          messages_summarized := Option.none, messages_kept := Option.none,
          summary_id := Option.none, error := Option.some e }
      | Except.ok summary_result =>
        { conversation_id := conversation_id, message_count := Option.some message_count,
          action_taken := ("summarized"), tokens_saved := summary_result.tokens_saved,
          summary_created := true,
          messages_summarized := Option.some messages_to_summarize,
          messages_kept := Option.some messages_to_keep,
          summary_id := summary_result.summary_id, error := Option.none }
    else
      { conversation_id := conversation_id, message_count := Option.some message_count,
        action_taken := ("none"), tokens_saved := 0, summary_created := false,
        messages_summarized := Option.none, messages_kept := Option.none,
        summary_id := Option.none, error := Option.none }

/-! #### check_conversation_health

`get_message_count` failing is caught by the outer `try` and yields the
error dictionary; `get_latest_summary` failing is swallowed by the inner
`except: pass`, leaving the score unadjusted. The token estimate is the
value `check_conversation_health` reads out of the
`estimate_token_usage` payload (`.get("estimated_tokens", 0)`). -/

/-- The health report fields the claims are about. -/
structure HealthReport where
  conversation_id : String
  message_count : Option Nat
  health_score : Int
  status : String
  has_summary : Bool
  error : Option String
deriving DecidableEq

/-- Model of `TokenManager.check_conversation_health`; `summary_fetch` is the
`get_latest_summary` oracle: `Except.ok (some _)` when a summary exists,
`Except.ok none` when none does, `Except.error` when the call raises. -/
def check_conversation_health (max_context_messages : Nat) (conversation_id : String)
    (get_message_count : Except String Nat)
    (summary_fetch : Except String (Option Unit))
    (estimated_tokens : Nat) : HealthReport :=
  match get_message_count with
  | Except.error e =>
    { conversation_id := conversation_id, message_count := Option.none,
      health_score := 10, status := ("error"), has_summary := false,
      error := Option.some e }
  | Except.ok message_count =>
    let score0 : Int := 10
    let score1 : Int :=
      if message_count > 50 then score0 - 4
      else if message_count > 30 then score0 - 2
      else if message_count > max_context_messages then score0 - 1
      else score0
    let hs :=
      if message_count > 20 then
        match summary_fetch with
        | Except.ok Option.none => (score1 - 1, false)
        | Except.ok (Option.some _) => (score1 + 1, true)
        | Except.error _ => (score1, false)
      else (score1, false)
    let score3 : Int := if estimated_tokens > 3000 then hs.1 - 2 else hs.1
    let status := if score3 ≥ 8 then ("healthy")
      else if score3 ≥ 6 then ("warning")
      else ("needs_attention")
    { conversation_id := conversation_id, message_count := Option.some message_count,
      health_score := score3, status := status, has_summary := hs.2,
      error := Option.none }

/-! ### StreamingCoordinator (src/services/streaming_coordinator.py)

The coordinator is modelled as explicit state: the two workflow-id-keyed
mappings and the queue bound. A queue entry `Option.some e` is an event,
`Option.none` is the termination sentinel that `_terminate_stream` puts
on the queue. Wall-clock timestamps only feed the one-hour inactivity
sweep of the background cleanup task, which is real-time behaviour
outside this model; the other `StreamingState` counters are kept.
The consumer loop of `create_stream` runs concurrently with the
producer; `yieldedEvents` realizes the legal schedule of the cooperative
scheduler in which the consumer drains the queue after the producer has
finished. -/

/-- The `StreamEvent` tagged union (src/models/streaming.py), with the
payload fields the coordinator itself reads or writes. -/
inductive StreamEvent where
  | workflowStarted (initial_prompt : String)
  | reasoningStep (step_id : String) (thought : String) (step_number : Nat)
  | toolStart (tool_name : String)
  | toolEnd (tool_name : String) (good : Bool)
  | agentThinking (thinking : String) (planning_stage : String)
  | workflowCompleted (final_response : String) (total_steps : Nat)
      (execution_time_ms : Nat) (tools_used : List String)
  | workflowError (error_message : String) (error_type : String)
  | heartbeat
deriving DecidableEq

/-- Terminal events: `WorkflowCompleted` or `WorkflowError`. -/
def isTerminal : StreamEvent → Bool
  | StreamEvent.workflowCompleted _ _ _ _ => true
  | StreamEvent.workflowError _ _ => true
  | _ => false

/-- Model of `StreamingState` (the wall-clock fields excluded, see above). -/
structure StreamingState where
  workflow_id : String
  is_active : Bool
  event_count : Nat
  step_counter : Nat
  tools_used : List String
deriving DecidableEq

/-- Fresh state created by `create_stream`. -/
def initState (wid : String) : StreamingState :=
  { workflow_id := wid, is_active := true, event_count := 0,
    step_counter := 0, tools_used := [] }

/-- Model of `StreamingState.mark_activity` (the `event_count` part). -/
def markActivity (st : StreamingState) : StreamingState :=
  { st with event_count := st.event_count + 1 }

/-- Generic first-occurrence lookup in a workflow-id-keyed mapping. -/
def alookup {α : Type} (l : List (String × α)) (k : String) : Option α :=
  ((l.find? (fun kv => kv.1 == k)).map Prod.snd)

/-- Update the first binding of a key, if present. -/
def aupdate {α : Type} (l : List (String × α)) (k : String) (f : α → α) : List (String × α) :=
  match l with
  | [] => []
  | kv :: rest =>
    if kv.1 == k then (kv.1, f kv.2) :: rest else kv :: aupdate rest k f

/-- The coordinator state: per-workflow bounded queues, per-workflow
streaming states, and the queue capacity (`max_queue_size`, default
1000 in the constructor). -/
structure Coordinator where
  active_streams : List (String × List (Option StreamEvent))
  streaming_states : List (String × StreamingState)
  max_queue_size : Nat
deriving DecidableEq

/-- Model of `StreamingCoordinator.emit_event`: no registered stream → `false`
and no state change; full queue (`put_nowait` raises `QueueFull`, the
event is dropped) → `false` and no state change; otherwise the event is
enqueued, activity is marked, and `true` is returned. -/
def emit_event (c : Coordinator) (workflow_id : String) (event : StreamEvent) :
    Coordinator × Bool :=
  match alookup c.active_streams workflow_id with
  | Option.none => (c, false)
  | Option.some queue =>
    if queue.length ≥ c.max_queue_size then (c, false)
    else
      ({ c with
          active_streams := aupdate c.active_streams workflow_id
            (fun q => q ++ [Option.some event]),
          streaming_states := aupdate c.streaming_states workflow_id markActivity },
        true)

/-- The registration half of `create_stream` followed by the immediate
`WorkflowStarted` emission; a duplicate registration is a logged no-op
that emits nothing (the generator returns at once). -/
def create_stream_begin (c : Coordinator) (workflow_id : String)
    (initial_prompt : String) : Coordinator :=
  if (alookup c.active_streams workflow_id).isSome then c
  else
    let c2 : Coordinator :=
      { c with
          active_streams := c.active_streams ++ [(workflow_id, [])],
          streaming_states := c.streaming_states ++ [(workflow_id, initState workflow_id)] }
    (emit_event c2 workflow_id (StreamEvent.workflowStarted initial_prompt)).1

/-- Model of `StreamingCoordinator._terminate_stream`: `put_nowait(None)`, a full
queue swallowed (`except QueueFull: pass`). -/
def terminate_stream (c : Coordinator) (workflow_id : String) : Coordinator :=
  match alookup c.active_streams workflow_id with
  | Option.none => c
  | Option.some queue =>
    if queue.length ≥ c.max_queue_size then c
    else
      { c with
          active_streams := aupdate c.active_streams workflow_id
            (fun q => q ++ [Option.none]) }

/-- Model of `StreamingCoordinator.complete_workflow`: emit the completion event
(total steps and tools drawn from the streaming state), then the
termination sentinel (the 100 ms delay between the two is real time; in
the modelled schedule the sentinel directly follows). -/
def complete_workflow (c : Coordinator) (workflow_id : String)
    (final_response : String) (execution_time_ms : Nat) : Coordinator :=
  let st := alookup c.streaming_states workflow_id
  let tools_used := match st with | Option.some s => s.tools_used | Option.none => []
  let total_steps := match st with | Option.some s => s.step_counter | Option.none => 0
  let c2 := (emit_event c workflow_id
    (StreamEvent.workflowCompleted final_response total_steps execution_time_ms tools_used)).1
  terminate_stream c2 workflow_id

/-- Model of `StreamingCoordinator.error_workflow`: symmetric to completion. -/
def error_workflow (c : Coordinator) (workflow_id : String)
    (error_message : String) (error_type : String) : Coordinator :=
  let c2 := (emit_event c workflow_id
    (StreamEvent.workflowError error_message error_type)).1
  terminate_stream c2 workflow_id

/-- The queue of a workflow (empty when not registered). -/
def queueOf (c : Coordinator) (workflow_id : String) : List (Option StreamEvent) :=
  (alookup c.active_streams workflow_id).getD []

/-- What the consumer loop of `create_stream` yields from a queue: the
events in FIFO order up to (excluding) the `None` termination sentinel;
everything, if no sentinel arrived. -/
def yieldedEvents (q : List (Option StreamEvent)) : List StreamEvent :=
  (q.takeWhile Option.isSome).filterMap id

/-- One complete single-workflow run in the producer-first schedule:
stream creation, the workflow's event emissions in order, then workflow
completion. -/
def runSingleWorkflow (cap : Nat) (workflow_id : String) (initial_prompt : String)
    (es : List StreamEvent) (final_response : String) (execution_time_ms : Nat) :
    Coordinator :=
  let c0 : Coordinator :=
    { active_streams := [], streaming_states := [], max_queue_size := cap }
  let c1 := create_stream_begin c0 workflow_id initial_prompt
  let c2 := es.foldl (fun c e => (emit_event c workflow_id e).1) c1
  complete_workflow c2 workflow_id final_response execution_time_ms

/-! ### get_or_create_conversation (src/services/backend_api.py) -/

/-- The conversation fields the validation reads. -/
structure ConversationRecord where
  conv_status : String
  agent_type : String
deriving DecidableEq

/-- A backend HTTP response to the conversation fetch. -/
structure HttpResponse where
  status_code : Nat
  body : ConversationRecord
deriving DecidableEq

/-- The error classes the resolution can raise: `ValueError` for caller
misuse, the `httpx` status error raised by `raise_for_status` (for
status codes ≥ 400 other than 404, which is special-cased first). The
message texts are abbreviated; no caller inspects them. -/
inductive ConvError where
  | valueError (msg : String)
  | httpStatusError (code : Nat)
deriving DecidableEq

/-- Model of `get_or_create_conversation`; `fetch_conversation` is the backend
GET oracle; `new_conversation_id` stands for the id that
`create_conversation` would mint. The boolean in the result records
whether a new conversation was created. -/
def get_or_create_conversation (agent_type : String) (conversation_id : Option String)
    (fetch_conversation : String → HttpResponse)
    (new_conversation_id : String) : Except ConvError (String × Bool) :=
  match conversation_id with
  | Option.some cid =>
    let response := fetch_conversation cid
    if response.status_code == 404 then
      Except.error (ConvError.valueError (("conversation not found")))
    else if response.status_code != 200 && response.status_code ≥ 400 then
      Except.error (ConvError.httpStatusError response.status_code)
    else
      let conversation := response.body
      if conversation.conv_status != ("ACTIVE") then
        Except.error (ConvError.valueError (("conversation is not active")))
      else if conversation.agent_type != agent_type then
        Except.error (ConvError.valueError (("conversation agent type mismatch")))
      else Except.ok (cid, false)
  | Option.none => Except.ok (new_conversation_id, true)

/-! ### Structural predicates used by the compression idempotence proof -/

/-- Is the value a dict? -/
def isDict : PyVal → Bool
  | PyVal.dict _ => true
  | _ => false

/-- The ordered sublist of `(k, src[k])` for the keys of `ks` present in
`src` — what the preserve loop appends. -/
def pairsOf (src : List (String × PyVal)) : List String → List (String × PyVal)
  | [] => []
  | k :: ks =>
    match lookup1 src k with
    | Option.some v => (k, v) :: pairsOf src ks
    | Option.none => pairsOf src ks

/-- Canonical shape of a compressor output dictionary: an optional
`text` binding that compresses to itself, followed by exactly the
preserved bindings of the whole dict, followed by scalar leftovers with
fresh keys. Compression maps every dict it accepts to this shape, and
every dict of this shape is a fixed point of compression. -/
def Canon (out : List (String × PyVal)) : Prop :=
  ∃ tpart ex,
    out = tpart ++ pairsOf out preserve_keys ++ ex ∧
    (tpart = [] ∨ ∃ t, tpart = [(("text" : String), t)] ∧ compressTextVal t = Except.ok t) ∧
    (∀ kv ∈ ex, kv.1 ≠ ("text") ∧ kv.1 ∉ preserve_keys ∧ isContainer kv.2 = false) ∧
    (ex.map Prod.fst).Nodup ∧
    (out.map Prod.fst).Nodup

/-- Concrete candidate list refuting C4 as stated: one candidate has
only an email, the other only a phone, and neither name is similar to
the search name. -/
def c4CexMatches : List (Case × Rat) :=
  [(⟨("1"), ("Aaaa").data, Option.some (("a@x.com").data), Option.none⟩, (0 : Rat)),
   (⟨("2"), ("Bbbb").data, Option.none, Option.some (("555-0100").data)⟩, (0 : Rat))]

/-- Concrete candidate list witnessing the amended C4: a single
candidate with both an email and a phone on file. -/
def c4WitMatches : List (Case × Rat) :=
  [(⟨("3"), ("Zzzz").data, Option.some (("z@x.com").data),
      Option.some (("555-0101").data)⟩, (0 : Rat))]

/-- The closed form of the health score computed by
`check_conversation_health` when both backend calls return. -/
def healthFormula (maxc mc : Nat) (sf : Option Unit) (toks : Nat) : Int :=
  10 - (if mc > 50 then 4 else if mc > 30 then 2 else if mc > maxc then 1 else 0)
    + (if mc > 20 then (if sf.isSome then 1 else (-1 : Int)) else 0)
    - (if toks > 3000 then 2 else 0)

/-- The final status categorization of `check_conversation_health`. -/
def statusOf (s : Int) : String :=
  if s ≥ 8 then ("healthy") else if s ≥ 6 then ("warning") else ("needs_attention")

/-! ## Theorems -/

/-- The similarity thresholds written `mkRat 9 10` / `mkRat 7 10` in the
embedding are the literals 0.9 and 0.7 of the Python source. -/
theorem similarity_thresholds_are_decimals :
    mkRat 9 10 = (9 : Rat) / 10 ∧ mkRat 7 10 = (7 : Rat) / 10 := by
  constructor <;> rw [Rat.mkRat_eq_divInt, Rat.divInt_eq_div] <;> norm_num

/-- C1: For every single-candidate input, the disambiguation analysis
returns action `proceed` with that case, with confidence exactly 100
when the computed name similarity is ≥ 0.9, exactly 85 when it is in
[0.7, 0.9), and exactly 70 otherwise. Being a Lean function of the
(search name, candidate list) pair, the result is deterministic and
pure by construction. -/
theorem C1_single_candidate_confidence (search_name : List Char) (c : Case) :
    analyze_confidence search_name [c] =
      ConfidenceResult.proceed
        (if calculate_name_similarity search_name c.client_name ≥ mkRat 9 10 then 100
         else if calculate_name_similarity search_name c.client_name ≥ mkRat 7 10 then 85
         else 70) c := by
  simp only [analyze_confidence]
  split
  · rfl
  · split
    · rfl
    · rfl

/-- Fidelity of the sequence-matcher model at the pairs where a
Nat-clamped `j2len` read (key 0 instead of Python's absent key -1)
would fabricate phantom match chains: the model returns difflib's
values 0.5, 1/3 and 2/3. -/
theorem ratioOf_no_phantom_matches :
    ratioOf (("aa").data) (("ab").data) = mkRat 1 2 ∧
    ratioOf (("aaaa").data) (("ab").data) = mkRat 1 3 ∧
    ratioOf (("aab").data) (("abb").data) = mkRat 2 3 := by
  refine ⟨?_, ?_, ?_⟩ <;> decide

/-- At search name "Aa" against the single candidate "Ab" the modelled
similarity is 0.5, below both tiers, so the analysis returns proceed
with confidence 70 — matching the program. -/
theorem analyze_confidence_low_tier_example :
    analyze_confidence (("Aa").data)
      [⟨("1"), ("Ab").data, Option.none, Option.none⟩] =
    ConfidenceResult.proceed 70 ⟨("1"), ("Ab").data, Option.none, Option.none⟩ := by
  decide

/-- C3: for message_count > 20 (the default `max_context_messages`) and
the default `summary_threshold` 15, the optimizer computes
`messages_to_keep = min 10 (count / 3)` and
`messages_to_summarize = max 15 (count - messages_to_keep)`, and the
latter never exceeds the message count. -/
theorem C3_summary_arithmetic (cid : String) (n : Nat) (sr : SummaryResult)
    (h : 20 < n) :
    (optimize_conversation_context 20 15 cid false (Except.ok n)
        (fun _ => Except.ok sr)).messages_kept = Option.some (min 10 (n / 3)) ∧
    (optimize_conversation_context 20 15 cid false (Except.ok n)
        (fun _ => Except.ok sr)).messages_summarized =
      Option.some (max 15 (n - min 10 (n / 3))) ∧
    max 15 (n - min 10 (n / 3)) ≤ n := by
  have hb : (false || decide (n > 20)) = true := by simp [h]
  simp only [optimize_conversation_context, hb, if_true]
  refine ⟨by trivial, by trivial, ?_⟩
  have h3 : min 10 (n / 3) ≤ n := le_trans (Nat.min_le_right _ _) (Nat.div_le_self n 3)
  omega

/-- Witness for C3 at message_count 25. -/
theorem C3_summary_arithmetic_witness :
    (optimize_conversation_context 20 15 (("c")) false (Except.ok 25)
        (fun _ => Except.ok ⟨Option.none, 0⟩)).messages_kept =
      Option.some (min 10 (25 / 3)) ∧
    (optimize_conversation_context 20 15 (("c")) false (Except.ok 25)
        (fun _ => Except.ok ⟨Option.none, 0⟩)).messages_summarized =
      Option.some (max 15 (25 - min 10 (25 / 3))) ∧
    max 15 (25 - min 10 (25 / 3)) ≤ 25 :=
  C3_summary_arithmetic (("c")) 25 ⟨Option.none, 0⟩ (by decide)

/-- C6: the optimizer is total and every downstream failure (message
count fetch, or summary creation in any branch that summarizes) is
absorbed into a report whose `action_taken` is `"error"` and whose
`error` field carries the failure message. -/
theorem C6_optimize_never_raises (maxc st : Nat) (cid : String) (force : Bool)
    (e : String) (n k : Nat) (f : Nat → Except String SummaryResult)
    (g : Except String Nat) :
    ((optimize_conversation_context maxc st cid force g f).action_taken = ("none") ∨
     (optimize_conversation_context maxc st cid force g f).action_taken = ("summarized") ∨
     (optimize_conversation_context maxc st cid force g f).action_taken = ("error")) ∧
    ((optimize_conversation_context maxc st cid force (Except.error e) f).action_taken
        = ("error") ∧
     (optimize_conversation_context maxc st cid force (Except.error e) f).error
        = Option.some e) ∧
    ((optimize_conversation_context maxc st cid true (Except.ok n)
        (fun _ => Except.error e)).action_taken = ("error") ∧
     (optimize_conversation_context maxc st cid true (Except.ok n)
        (fun _ => Except.error e)).error = Option.some e) ∧
    ((optimize_conversation_context maxc st cid false (Except.ok (maxc + 1 + k))
        (fun _ => Except.error e)).action_taken = ("error") ∧
     (optimize_conversation_context maxc st cid false (Except.ok (maxc + 1 + k))
        (fun _ => Except.error e)).error = Option.some e) := by
  refine ⟨?_, ⟨rfl, rfl⟩, ⟨rfl, rfl⟩, ?_⟩
  · match g with
    | Except.error e2 => exact Or.inr (Or.inr rfl)
    | Except.ok m =>
      simp only [optimize_conversation_context]
      split
      · match f (max st (m - min 10 (m / 3))) with
        | Except.error e2 => exact Or.inr (Or.inr rfl)
        | Except.ok r => exact Or.inr (Or.inl rfl)
      · exact Or.inl rfl
  · have hb : (false || decide (maxc + 1 + k > maxc)) = true := by
      simp [Nat.lt_add_of_pos_right, Nat.succ_le_iff]
      omega
    simp only [optimize_conversation_context, hb, if_true]
    exact ⟨by trivial, by trivial⟩

/-- C9: when a conversation id is supplied, resolution raises a
`ValueError` if the conversation is not found (404), if its status is
not ACTIVE, or if its agent type differs from the expected one; when
validation passes, the same id is returned and no conversation is
created. -/
theorem C9_supplied_conversation_validation (agent_type : String) (cid : String)
    (f : String → HttpResponse) (nid : String) :
    ((f cid).status_code = 404 →
      get_or_create_conversation agent_type (Option.some cid) f nid =
        Except.error (ConvError.valueError (("conversation not found")))) ∧
    ((f cid).status_code = 200 → (f cid).body.conv_status ≠ ("ACTIVE") →
      get_or_create_conversation agent_type (Option.some cid) f nid =
        Except.error (ConvError.valueError (("conversation is not active")))) ∧
    ((f cid).status_code = 200 → (f cid).body.conv_status = ("ACTIVE") →
        (f cid).body.agent_type ≠ agent_type →
      get_or_create_conversation agent_type (Option.some cid) f nid =
        Except.error (ConvError.valueError (("conversation agent type mismatch")))) ∧
    ((f cid).status_code = 200 → (f cid).body.conv_status = ("ACTIVE") →
        (f cid).body.agent_type = agent_type →
      get_or_create_conversation agent_type (Option.some cid) f nid =
        Except.ok (cid, false)) := by
  simp only [get_or_create_conversation]
  refine ⟨?_, ?_, ?_, ?_⟩
  · intro h1
    simp [h1]
  · intro h1 h2
    simp [h1, h2]
  · intro h1 h2 h3
    simp [h1, h2, h3]
  · intro h1 h2 h3
    simp [h1, h2, h3]

/-- Witness for C9: all four validation outcomes at concrete responses. -/
theorem C9_supplied_conversation_validation_witness :
    (get_or_create_conversation (("CommunicationsAgent")) (Option.some (("c1")))
        (fun _ => ⟨404, ⟨("ACTIVE"), ("CommunicationsAgent")⟩⟩) (("new")) =
      Except.error (ConvError.valueError (("conversation not found")))) ∧
    (get_or_create_conversation (("CommunicationsAgent")) (Option.some (("c1")))
        (fun _ => ⟨200, ⟨("COMPLETED"), ("CommunicationsAgent")⟩⟩) (("new")) =
      Except.error (ConvError.valueError (("conversation is not active")))) ∧
    (get_or_create_conversation (("CommunicationsAgent")) (Option.some (("c1")))
        (fun _ => ⟨200, ⟨("ACTIVE"), ("AnalysisAgent")⟩⟩) (("new")) =
      Except.error (ConvError.valueError (("conversation agent type mismatch")))) ∧
    (get_or_create_conversation (("CommunicationsAgent")) (Option.some (("c1")))
        (fun _ => ⟨200, ⟨("ACTIVE"), ("CommunicationsAgent")⟩⟩) (("new")) =
      Except.ok ((("c1")), false)) := by
  refine ⟨?_, ?_, ?_, ?_⟩
  · exact (C9_supplied_conversation_validation (("CommunicationsAgent")) (("c1"))
      (fun _ => ⟨404, ⟨("ACTIVE"), ("CommunicationsAgent")⟩⟩) (("new"))).1 rfl
  · exact (C9_supplied_conversation_validation (("CommunicationsAgent")) (("c1"))
      (fun _ => ⟨200, ⟨("COMPLETED"), ("CommunicationsAgent")⟩⟩) (("new"))).2.1 rfl
      (by decide)
  · exact (C9_supplied_conversation_validation (("CommunicationsAgent")) (("c1"))
      (fun _ => ⟨200, ⟨("ACTIVE"), ("AnalysisAgent")⟩⟩) (("new"))).2.2.1 rfl rfl
      (by decide)
  · exact (C9_supplied_conversation_validation (("CommunicationsAgent")) (("c1"))
      (fun _ => ⟨200, ⟨("ACTIVE"), ("CommunicationsAgent")⟩⟩) (("new"))).2.2.2 rfl rfl rfl

/-- C10: compressing a non-mapping content value yields a mapping with a
single `text` key holding the value's string form, truncated at 200
characters (not 300) plus an ellipsis when longer than 200. -/
theorem C10_nonmapping_compression (v : PyVal) (h : isDict v = false) :
    compress_message_content v = Except.ok (PyVal.dict
      [(("text" : String), PyVal.str
          (if (pyStr v).length > 200 then (pyStr v).take 200 ++ ellipsis
           else pyStr v))]) := by
  cases v with
  | dict kvs => simp [isDict] at h
  | str s => rfl
  | int n => rfl
  | bool b => rfl
  | none => rfl
  | list xs => rfl

set_option maxRecDepth 4000 in
/-- Witness for C10: a 201-character string is truncated at 200. -/
theorem C10_nonmapping_compression_witness :
    compress_message_content (PyVal.str (List.replicate 201 'a')) =
      Except.ok (PyVal.dict [(("text" : String),
        PyVal.str (List.replicate 200 'a' ++ ellipsis))]) := by
  have h1 := C10_nonmapping_compression (PyVal.str (List.replicate 201 'a')) rfl
  rw [h1]
  simp [pyStr, List.take_replicate]

/-- First-occurrence lookup after a first-occurrence update. -/
theorem alookup_aupdate_self {α : Type} (l : List (String × α)) (k : String)
    (f : α → α) : alookup (aupdate l k f) k = (alookup l k).map f := by
  induction l with
  | nil => rfl
  | cons kv rest ih =>
    by_cases hk : kv.1 == k
    · simp [alookup, aupdate, hk, List.find?]
    · simpa [alookup, aupdate, hk, List.find?] using ih

/-- C7: `emit_event` is total (never raises) and non-blocking: with no
registered stream it returns `false` and leaves the coordinator
unchanged; with a full queue it drops the event, returns `false` and
leaves the coordinator unchanged; otherwise it appends the event to the
workflow's queue (marking activity) and returns `true`. -/
theorem C7_emit_event_contract (c : Coordinator) (wid : String) (e : StreamEvent) :
    (alookup c.active_streams wid = Option.none → emit_event c wid e = (c, false)) ∧
    (∀ q, alookup c.active_streams wid = Option.some q →
      c.max_queue_size ≤ q.length → emit_event c wid e = (c, false)) ∧
    (∀ q, alookup c.active_streams wid = Option.some q →
      q.length < c.max_queue_size →
      (emit_event c wid e).2 = true ∧
      alookup (emit_event c wid e).1.active_streams wid =
        Option.some (q ++ [Option.some e]) ∧
      (emit_event c wid e).1.streaming_states =
        aupdate c.streaming_states wid markActivity ∧
      (emit_event c wid e).1.max_queue_size = c.max_queue_size) := by
  refine ⟨?_, ?_, ?_⟩
  · intro h
    simp [emit_event, h]
  · intro q hq hlen
    simp [emit_event, hq, hlen]
  · intro q hq hlen
    have hnot : ¬ q.length ≥ c.max_queue_size := Nat.not_le.2 hlen
    simp [emit_event, hq, hnot, alookup_aupdate_self]

/-- Witness for C7: the three emit outcomes at concrete coordinators. -/
theorem C7_emit_event_contract_witness :
    (emit_event ⟨[], [], 1⟩ (("w")) StreamEvent.heartbeat = (⟨[], [], 1⟩, false)) ∧
    (emit_event ⟨[((("w")), [Option.some StreamEvent.heartbeat])], [], 1⟩ (("w"))
        StreamEvent.heartbeat =
      (⟨[((("w")), [Option.some StreamEvent.heartbeat])], [], 1⟩, false)) ∧
    ((emit_event ⟨[((("w")), [])], [((("w")), initState (("w")))], 1⟩ (("w"))
        StreamEvent.heartbeat).2 = true ∧
     alookup (emit_event ⟨[((("w")), [])], [((("w")), initState (("w")))], 1⟩ (("w"))
        StreamEvent.heartbeat).1.active_streams (("w")) =
       Option.some ([] ++ [Option.some StreamEvent.heartbeat]) ∧
     (emit_event ⟨[((("w")), [])], [((("w")), initState (("w")))], 1⟩ (("w"))
        StreamEvent.heartbeat).1.streaming_states =
       aupdate [((("w")), initState (("w")))] (("w")) markActivity ∧
     (emit_event ⟨[((("w")), [])], [((("w")), initState (("w")))], 1⟩ (("w"))
        StreamEvent.heartbeat).1.max_queue_size = 1) := by
  refine ⟨?_, ?_, ?_⟩
  · exact (C7_emit_event_contract ⟨[], [], 1⟩ (("w")) StreamEvent.heartbeat).1 rfl
  · exact (C7_emit_event_contract ⟨[((("w")), [Option.some StreamEvent.heartbeat])], [], 1⟩
      (("w")) StreamEvent.heartbeat).2.1 _ rfl (by decide)
  · exact (C7_emit_event_contract ⟨[((("w")), [])], [((("w")), initState (("w")))], 1⟩
      (("w")) StreamEvent.heartbeat).2.2 _ rfl (by decide)

/-- The health score of a successful health check equals its closed
form. -/
theorem health_score_closed_form (maxc : Nat) (cid : String) (mc : Nat)
    (sf : Option Unit) (toks : Nat) :
    (check_conversation_health maxc cid (Except.ok mc) (Except.ok sf) toks).health_score =
      healthFormula maxc mc sf toks := by
  cases sf <;> simp only [check_conversation_health, healthFormula, Option.isSome] <;>
    split_ifs <;> simp_all

/-- The status of a successful health check is the categorization of
its own final score. -/
theorem health_status_closed_form (maxc : Nat) (cid : String) (mc : Nat)
    (sf : Option Unit) (toks : Nat) :
    (check_conversation_health maxc cid (Except.ok mc) (Except.ok sf) toks).status =
      statusOf
        ((check_conversation_health maxc cid (Except.ok mc) (Except.ok sf) toks).health_score) := by
  simp only [check_conversation_health, statusOf]

/-- C8: the health score starts at 10 and applies exactly the claimed
adjustments (−4 / −2 / −1 by message-count tier; ∓1 for summary
presence when message_count > 20; −2 above 3000 estimated tokens), and
the status is `healthy` iff the score is ≥ 8, `warning` iff it is 6 or
7, and `needs_attention` iff it is below 6. -/
theorem C8_health_score_and_status (maxc : Nat) (cid : String) (mc : Nat)
    (sf : Option Unit) (toks : Nat) :
    (check_conversation_health maxc cid (Except.ok mc) (Except.ok sf) toks).health_score =
      10 - (if mc > 50 then 4 else if mc > 30 then 2 else if mc > maxc then 1 else 0)
        + (if mc > 20 then (if sf.isSome then 1 else (-1 : Int)) else 0)
        - (if toks > 3000 then 2 else 0) ∧
    ((check_conversation_health maxc cid (Except.ok mc) (Except.ok sf) toks).status =
        ("healthy") ↔
      (check_conversation_health maxc cid (Except.ok mc) (Except.ok sf) toks).health_score
        ≥ 8) ∧
    ((check_conversation_health maxc cid (Except.ok mc) (Except.ok sf) toks).status =
        ("warning") ↔
      ((check_conversation_health maxc cid (Except.ok mc) (Except.ok sf) toks).health_score
          = 6 ∨
       (check_conversation_health maxc cid (Except.ok mc) (Except.ok sf) toks).health_score
          = 7)) ∧
    ((check_conversation_health maxc cid (Except.ok mc) (Except.ok sf) toks).status =
        ("needs_attention") ↔
      (check_conversation_health maxc cid (Except.ok mc) (Except.ok sf) toks).health_score
        < 6) := by
  refine ⟨?_, ?_, ?_, ?_⟩
  · rw [health_score_closed_form]
    rfl
  all_goals rw [health_status_closed_form]
  all_goals generalize (check_conversation_health maxc cid (Except.ok mc)
    (Except.ok sf) toks).health_score = F
  all_goals unfold statusOf
  all_goals split_ifs <;> (try simp_all) <;> omega

/-- C4 (counterexample): with fewer than two similar candidates, the
code chooses the contact-details question set when *some* candidate has
an email and *some* candidate has a phone — not only when *all*
candidates have both. At `c4CexMatches` the guard of the claim holds,
not all candidates have both contact fields, and yet the contact-details
set is chosen, so the claimed equivalence is false. -/
theorem C4_contact_details_counterexample :
    ((c4CexMatches.filter (fun m =>
        decide (calculate_name_similarity (("John").data) m.1.client_name > mkRat 7 10))).length
      < 2) ∧
    ¬ (((generate_clarification_strategy (("John").data) c4CexMatches).questions =
          contactDetailsQuestions) ↔
        (∀ m ∈ c4CexMatches,
          truthyOpt m.1.client_email = true ∧ truthyOpt m.1.client_phone = true)) := by
  constructor
  · decide
  · decide

/-- C4 (amended): in the multiple-match clarification strategy, when
fewer than two candidates have similarity > 0.7 to the search name, the
contact-details question set is chosen if and only if at least one
candidate has an email on file and at least one candidate has a phone
on file. -/
theorem C4_amended_contact_details (search_name : List Char) (ms : List (Case × Rat))
    (h : (ms.filter (fun m =>
        decide (calculate_name_similarity search_name m.1.client_name > mkRat 7 10))).length
      < 2) :
    ((generate_clarification_strategy search_name ms).questions = contactDetailsQuestions ↔
      (ms.any (fun m => truthyOpt m.1.client_email) = true ∧
       ms.any (fun m => truthyOpt m.1.client_phone) = true)) := by
  simp only [generate_clarification_strategy]
  have h1 : ¬ ((ms.filter (fun m =>
      decide (calculate_name_similarity search_name m.1.client_name > mkRat 7 10))).map
        (fun m => m.1.client_name)).length > 1 := by
    rw [List.length_map]
    omega
  rw [if_neg h1]
  by_cases he : ms.any (fun m => truthyOpt m.1.client_email)
  · by_cases hp : ms.any (fun m => truthyOpt m.1.client_phone)
    · simp [he, hp]
    · simp [he, hp]
      decide
  · by_cases hp : ms.any (fun m => truthyOpt m.1.client_phone)
    · simp [he, hp]
      decide
    · simp [he, hp]
      decide

/-- Witness for the amended C4 at `c4WitMatches`. -/
theorem C4_amended_contact_details_witness :
    (generate_clarification_strategy (("John").data) c4WitMatches).questions =
        contactDetailsQuestions ↔
      (c4WitMatches.any (fun m => truthyOpt m.1.client_email) = true ∧
       c4WitMatches.any (fun m => truthyOpt m.1.client_phone) = true) :=
  C4_amended_contact_details (("John").data) c4WitMatches (by decide)

/-- Emitting into a single-stream coordinator with queue space appends
to the queue and marks activity. -/
theorem emit_event_single (wid : String) (cap : Nat) (q : List (Option StreamEvent))
    (st : StreamingState) (e : StreamEvent) (hq : q.length < cap) :
    emit_event ⟨[(wid, q)], [(wid, st)], cap⟩ wid e =
      (⟨[(wid, q ++ [Option.some e])], [(wid, markActivity st)], cap⟩, true) := by
  simp [emit_event, alookup, aupdate, List.find?, Nat.not_le.2 hq]

/-- Folding a list of emissions into a single-stream coordinator with
enough queue space enqueues all of them in order. -/
theorem emit_fold_single (wid : String) (cap : Nat) :
    ∀ (es : List StreamEvent) (q : List (Option StreamEvent)) (st : StreamingState),
    q.length + es.length ≤ cap →
    es.foldl (fun c e => (emit_event c wid e).1)
      (⟨[(wid, q)], [(wid, st)], cap⟩ : Coordinator) =
    ⟨[(wid, q ++ es.map Option.some)],
     [(wid, { st with event_count := st.event_count + es.length })], cap⟩ := by
  intro es
  induction es with
  | nil => intro q st h; simp
  | cons e es ih =>
    intro q st h
    have hq : q.length < cap := by simp at h; omega
    rw [List.foldl_cons]
    have hstep := emit_event_single wid cap q st e hq
    rw [hstep]
    have h2 : (q ++ [Option.some e]).length + es.length ≤ cap := by
      simp at h ⊢; omega
    rw [ih (q ++ [Option.some e]) (markActivity st) h2]
    simp [markActivity, List.append_assoc]
    omega

/-- The consumer yields exactly the enqueued events, in order, up to the
termination sentinel. -/
theorem yielded_of_sentinel (l : List StreamEvent) (rest : List (Option StreamEvent)) :
    yieldedEvents (l.map Option.some ++ Option.none :: rest) = l := by
  induction l with
  | nil => rfl
  | cons e es ih =>
    simp only [yieldedEvents] at ih ⊢
    simp [List.takeWhile_cons, ih]

/-- The queue of the only registered stream. -/
theorem queueOf_single (wid : String) (cap : Nat) (q : List (Option StreamEvent))
    (sts : List (String × StreamingState)) :
    queueOf ⟨[(wid, q)], sts, cap⟩ wid = q := by
  simp [queueOf, alookup, List.find?]

/-- Registration against an empty coordinator followed by the start
event. -/
theorem create_stream_begin_empty (wid prompt : String) (cap : Nat) (hc : 0 < cap) :
    create_stream_begin ⟨[], [], cap⟩ wid prompt =
      ⟨[(wid, [Option.some (StreamEvent.workflowStarted prompt)])],
       [(wid, markActivity (initState wid))], cap⟩ := by
  unfold create_stream_begin
  have h0 : (alookup (α := List (Option StreamEvent)) [] wid).isSome = false := rfl
  rw [h0]
  simp only [Bool.false_eq_true, if_false, List.nil_append]
  have := emit_event_single wid cap [] (initState wid)
    (StreamEvent.workflowStarted prompt) (by simpa using hc)
  simp only [List.nil_append] at this
  rw [this]

/-- The sentinel enqueue on the only registered stream with space. -/
theorem terminate_single (wid : String) (cap : Nat) (q : List (Option StreamEvent))
    (sts : List (String × StreamingState)) (hq : q.length < cap) :
    terminate_stream ⟨[(wid, q)], sts, cap⟩ wid =
      ⟨[(wid, q ++ [Option.none])], sts, cap⟩ := by
  simp [terminate_stream, alookup, aupdate, List.find?, Nat.not_le.2 hq]

/-- Workflow completion on the only registered stream with space for the
completion event and the sentinel. -/
theorem complete_single (wid fr : String) (cap ems : Nat)
    (q : List (Option StreamEvent)) (st : StreamingState)
    (hq : q.length + 2 ≤ cap) :
    complete_workflow ⟨[(wid, q)], [(wid, st)], cap⟩ wid fr ems =
      ⟨[(wid, (q ++ [Option.some (StreamEvent.workflowCompleted fr st.step_counter ems
          st.tools_used)]) ++ [Option.none])],
       [(wid, markActivity st)], cap⟩ := by
  unfold complete_workflow
  have hst : alookup [(wid, st)] wid = Option.some st := by simp [alookup, List.find?]
  rw [hst]
  show terminate_stream (emit_event ⟨[(wid, q)], [(wid, st)], cap⟩ wid
      (StreamEvent.workflowCompleted fr st.step_counter ems st.tools_used)).1 wid = _
  have hemit := emit_event_single wid cap q st
    (StreamEvent.workflowCompleted fr st.step_counter ems st.tools_used) (by omega)
  rw [hemit]
  exact terminate_single wid cap _ _ (by simp; omega)

/-- C2 (counterexample): the claim fails as stated because queue
back-pressure drops events. With capacity 2, the start event and one
workflow event fill the queue, the completion event and the sentinel are
both dropped, and the consumer observes a sequence with no terminal
event at all. -/
theorem C2_fifo_counterexample :
    (yieldedEvents (queueOf (runSingleWorkflow 2 (("w")) (("go"))
        [StreamEvent.agentThinking (("t")) (("analysis"))] (("done")) 5) (("w")))).countP
        isTerminal = 0 ∧
    yieldedEvents (queueOf (runSingleWorkflow 2 (("w")) (("go"))
        [StreamEvent.agentThinking (("t")) (("analysis"))] (("done")) 5) (("w"))) =
      [StreamEvent.workflowStarted (("go")),
       StreamEvent.agentThinking (("t")) (("analysis"))] := by
  constructor
  · decide
  · decide

/-- C2 (amended): for a single workflow whose events (start event,
workflow events, terminal event and sentinel) fit within the queue
capacity, the consumer observes exactly the emitted sequence in FIFO
emission order: `WorkflowStarted` first, then the workflow events in
`emit_event` order, and exactly one terminal event as the last element
with nothing after it. (In the modelled schedule the consumer drains
after the producer finishes; the capacity bound is what the
counterexample forces.) -/
theorem C2_amended_fifo_structure (cap : Nat) (wid prompt fr : String) (ems : Nat)
    (es : List StreamEvent)
    (hcap : es.length + 3 ≤ cap)
    (hterm : ∀ e ∈ es, isTerminal e = false) :
    yieldedEvents (queueOf (runSingleWorkflow cap wid prompt es fr ems) wid) =
      StreamEvent.workflowStarted prompt :: es ++
        [StreamEvent.workflowCompleted fr 0 ems []] ∧
    (yieldedEvents (queueOf (runSingleWorkflow cap wid prompt es fr ems) wid)).filter
        isTerminal = [StreamEvent.workflowCompleted fr 0 ems []] := by
  have hmain : yieldedEvents (queueOf (runSingleWorkflow cap wid prompt es fr ems) wid) =
      StreamEvent.workflowStarted prompt :: es ++
        [StreamEvent.workflowCompleted fr 0 ems []] := by
    show yieldedEvents (queueOf (complete_workflow
      (es.foldl (fun c e => (emit_event c wid e).1)
        (create_stream_begin ⟨[], [], cap⟩ wid prompt)) wid fr ems) wid) = _
    rw [create_stream_begin_empty wid prompt cap (by omega)]
    rw [emit_fold_single wid cap es [Option.some (StreamEvent.workflowStarted prompt)]
      (markActivity (initState wid)) (by simp; omega)]
    rw [complete_single wid fr cap ems _ _ (by simp; omega)]
    rw [queueOf_single]
    have hyield := yielded_of_sentinel (StreamEvent.workflowStarted prompt :: es ++
      [StreamEvent.workflowCompleted fr 0 ems []]) []
    simpa [markActivity, initState] using hyield
  refine ⟨hmain, ?_⟩
  rw [hmain]
  simp only [List.filter_cons, List.filter_append]
  rw [List.filter_eq_nil_iff.2 (by intro e he; simp [hterm e he])]
  rfl

/-- Witness for the amended C2: three tool events at capacity 10. -/
theorem C2_amended_fifo_structure_witness :
    yieldedEvents (queueOf (runSingleWorkflow 10 (("w")) (("go"))
        [StreamEvent.toolStart (("lookup")),
         StreamEvent.toolEnd (("lookup")) true,
         StreamEvent.agentThinking (("t")) (("execution"))] (("done")) 7) (("w"))) =
      StreamEvent.workflowStarted (("go")) ::
        [StreamEvent.toolStart (("lookup")),
         StreamEvent.toolEnd (("lookup")) true,
         StreamEvent.agentThinking (("t")) (("execution"))] ++
        [StreamEvent.workflowCompleted (("done")) 0 7 []] ∧
    (yieldedEvents (queueOf (runSingleWorkflow 10 (("w")) (("go"))
        [StreamEvent.toolStart (("lookup")),
         StreamEvent.toolEnd (("lookup")) true,
         StreamEvent.agentThinking (("t")) (("execution"))] (("done")) 7) (("w")))).filter
        isTerminal = [StreamEvent.workflowCompleted (("done")) 0 7 []] :=
  C2_amended_fifo_structure 10 (("w")) (("go")) (("done")) 7
    [StreamEvent.toolStart (("lookup")),
     StreamEvent.toolEnd (("lookup")) true,
     StreamEvent.agentThinking (("t")) (("execution"))]
    (by decide) (by decide)

/-! ### Lemmas for compression idempotence (C5) -/

theorem lookup1_cons (k : String) (kv : String × PyVal) (l : List (String × PyVal)) :
    lookup1 (kv :: l) k =
      if kv.1 == k then Option.some kv.2 else lookup1 l k := by
  by_cases h : kv.1 == k <;> simp [lookup1, List.find?, h]

theorem lookup1_eq_none (l : List (String × PyVal)) (k : String) :
    lookup1 l k = Option.none ↔ ∀ kv ∈ l, kv.1 ≠ k := by
  simp [lookup1, List.find?_eq_none]

theorem hasKey_eq_isSome (l : List (String × PyVal)) (k : String) :
    hasKey l k = (lookup1 l k).isSome := by
  induction l with
  | nil => rfl
  | cons kv rest ih =>
    by_cases h : kv.1 == k
    · simp [hasKey, lookup1_cons, h]
    · simp only [hasKey, lookup1_cons, h] at ih ⊢
      simp only [Bool.false_eq_true, if_false, List.any_cons, h, Bool.false_or]
      exact ih

theorem hasKey_of_mem {kv : String × PyVal} {l : List (String × PyVal)}
    (h : kv ∈ l) : hasKey l kv.1 = true := by
  have hb : (kv.1 == kv.1) = true := by simp
  exact List.any_eq_true.2 ⟨kv, h, hb⟩

theorem hasKey_append (l1 l2 : List (String × PyVal)) (k : String) :
    hasKey (l1 ++ l2) k = (hasKey l1 k || hasKey l2 k) := by
  simp [hasKey]

theorem lookup1_append (l1 l2 : List (String × PyVal)) (k : String) :
    lookup1 (l1 ++ l2) k =
      match lookup1 l1 k with
      | Option.some v => Option.some v
      | Option.none => lookup1 l2 k := by
  induction l1 with
  | nil => simp [lookup1]
  | cons kv rest ih =>
    by_cases h : kv.1 == k <;> simp [lookup1_cons, h, ih]

theorem mem_pairsOf {src : List (String × PyVal)} {ks : List String}
    {kv : String × PyVal} (h : kv ∈ pairsOf src ks) :
    kv.1 ∈ ks ∧ lookup1 src kv.1 = Option.some kv.2 := by
  induction ks with
  | nil => simp [pairsOf] at h
  | cons k ks ih =>
    simp only [pairsOf] at h
    cases hk : lookup1 src k with
    | none =>
      rw [hk] at h
      exact ⟨List.mem_cons_of_mem _ (ih h).1, (ih h).2⟩
    | some v =>
      rw [hk] at h
      rcases List.mem_cons.1 h with h1 | h1
      · subst h1
        exact ⟨List.mem_cons_self _ _, hk⟩
      · exact ⟨List.mem_cons_of_mem _ (ih h1).1, (ih h1).2⟩

theorem pairsOf_congr {src1 src2 : List (String × PyVal)} {ks : List String}
    (h : ∀ k ∈ ks, lookup1 src1 k = lookup1 src2 k) :
    pairsOf src1 ks = pairsOf src2 ks := by
  induction ks with
  | nil => rfl
  | cons k ks ih =>
    have hk := h k (List.mem_cons_self _ _)
    have ih2 := ih (fun k2 hk2 => h k2 (List.mem_cons_of_mem _ hk2))
    simp only [pairsOf, hk, ih2]

theorem lookup1_pairsOf_of_none {src : List (String × PyVal)} {k : String}
    (hk : lookup1 src k = Option.none) (ks : List String) :
    lookup1 (pairsOf src ks) k = Option.none := by
  induction ks with
  | nil => rfl
  | cons k2 ks ih =>
    simp only [pairsOf]
    cases hk2 : lookup1 src k2 with
    | none => exact ih
    | some v =>
      rw [lookup1_cons]
      have : ¬ (k2 == k) := by
        intro hb
        rw [eq_of_beq hb] at hk2
        rw [hk2] at hk
        cases hk
      simp [this, ih]

theorem lookup1_pairsOf_of_not_mem {k : String} {ks : List String}
    (h : k ∉ ks) (src : List (String × PyVal)) :
    lookup1 (pairsOf src ks) k = Option.none := by
  rw [lookup1_eq_none]
  intro kv hkv he
  exact h (he ▸ (mem_pairsOf hkv).1)

theorem lookup1_pairsOf_of_mem {k : String} {ks : List String}
    (h : k ∈ ks) (src : List (String × PyVal)) :
    lookup1 (pairsOf src ks) k = lookup1 src k := by
  induction ks with
  | nil => cases h
  | cons k2 ks ih =>
    simp only [pairsOf]
    by_cases he : k2 = k
    · subst he
      cases hk2 : lookup1 src k2 with
      | none => exact lookup1_pairsOf_of_none hk2 ks
      | some v => simp [lookup1_cons]
    · have hm : k ∈ ks := by
        rcases List.mem_cons.1 h with h1 | h1
        · exact absurd h1.symm he
        · exact h1
      cases hk2 : lookup1 src k2 with
      | none => exact ih hm
      | some v =>
        rw [lookup1_cons]
        have : ¬ (k2 == k) := by
          intro hb
          exact he (eq_of_beq hb)
        simp [this, ih hm]

theorem keys_pairsOf_nodup {ks : List String} (h : ks.Nodup)
    (src : List (String × PyVal)) : ((pairsOf src ks).map Prod.fst).Nodup := by
  induction ks with
  | nil => simp [pairsOf]
  | cons k ks ih =>
    have hn := List.nodup_cons.1 h
    simp only [pairsOf]
    cases hk : lookup1 src k with
    | none => exact ih hn.2
    | some v =>
      simp only [List.map_cons]
      refine List.nodup_cons.2 ⟨?_, ih hn.2⟩
      intro hmem
      rcases List.mem_map.1 hmem with ⟨kv, hkv, he⟩
      exact hn.1 (he ▸ (mem_pairsOf hkv).1)

theorem pairsOf_eq_nil {src : List (String × PyVal)} {ks : List String}
    (h : ∀ k ∈ ks, lookup1 src k = Option.none) : pairsOf src ks = [] := by
  induction ks with
  | nil => rfl
  | cons k ks ih =>
    simp only [pairsOf, h k (List.mem_cons_self _ _)]
    exact ih (fun k2 hk2 => h k2 (List.mem_cons_of_mem _ hk2))

theorem preserveLoop_eq (src : List (String × PyVal)) :
    ∀ (ks : List String) (acc : List (String × PyVal)),
    preserveLoop src ks acc = acc ++ pairsOf src ks := by
  intro ks
  induction ks with
  | nil => intro acc; simp [preserveLoop, pairsOf]
  | cons k ks ih =>
    intro acc
    simp only [preserveLoop, pairsOf]
    cases hk : lookup1 src k with
    | none => simp [ih]
    | some v => simp [ih]

theorem otherLoop_skip {acc : List (String × PyVal)} :
    ∀ {items : List (String × PyVal)},
    (∀ kv ∈ items, hasKey acc kv.1 = true ∨ kv.1 = ("text")) →
    otherLoop acc items = acc := by
  intro items
  induction items with
  | nil => intro _; rfl
  | cons kv items ih =>
    intro h
    have hkv := h kv (List.mem_cons_self _ _)
    have hcond : (hasKey acc kv.1 || kv.1 == ("text")) = true := by
      rcases hkv with h1 | h1 <;> simp [h1]
    simp only [otherLoop, hcond, if_true]
    exact ih (fun kv2 hk => h kv2 (List.mem_cons_of_mem _ hk))

theorem otherLoop_verbatim :
    ∀ (ex acc : List (String × PyVal)), (ex.map Prod.fst).Nodup →
    (∀ kv ∈ ex, hasKey acc kv.1 = false ∧ kv.1 ≠ ("text") ∧ isContainer kv.2 = false) →
    otherLoop acc ex = acc ++ ex := by
  intro ex
  induction ex with
  | nil => intro acc _ _; simp [otherLoop]
  | cons kv ex ih =>
    intro acc hnd hc
    obtain ⟨h1, h2, h3⟩ := hc kv (List.mem_cons_self _ _)
    have hcond : (hasKey acc kv.1 || kv.1 == ("text")) = false := by
      simp [h1, h2]
    simp only [otherLoop, hcond, Bool.false_eq_true, if_false, h3]
    have hkvp : ((kv.1, kv.2) : String × PyVal) = kv := rfl
    rw [hkvp]
    have hnd2 := hnd
    simp only [List.map_cons, List.nodup_cons] at hnd2
    rw [ih (acc ++ [kv]) hnd2.2 ?_]
    · simp
    · intro kv2 hk2
      obtain ⟨g1, g2, g3⟩ := hc kv2 (List.mem_cons_of_mem _ hk2)
      refine ⟨?_, g2, g3⟩
      rw [hasKey_append, g1]
      have hne : kv2.1 ≠ kv.1 := by
        intro he
        exact hnd2.1 (he ▸ List.mem_map.2 ⟨kv2, hk2, rfl⟩)
      simp [hasKey]
      exact fun he => hne he.symm

theorem otherLoop_spec :
    ∀ (items acc : List (String × PyVal)), ∃ ex,
    otherLoop acc items = acc ++ ex ∧
    (∀ kv ∈ ex, hasKey acc kv.1 = false ∧ kv.1 ≠ ("text") ∧ isContainer kv.2 = false ∧
      kv.1 ∈ items.map Prod.fst) ∧
    (ex.map Prod.fst).Nodup := by
  intro items
  induction items with
  | nil =>
    intro acc
    exact ⟨[], by simp [otherLoop], by simp, by simp⟩
  | cons kv items ih =>
    intro acc
    by_cases h1 : (hasKey acc kv.1 || kv.1 == ("text")) = true
    · obtain ⟨ex, he, hc, hn⟩ := ih acc
      refine ⟨ex, ?_, ?_, hn⟩
      · simp only [otherLoop, h1, if_true]
        exact he
      · intro kv2 hk2
        obtain ⟨a, b, c, d⟩ := hc kv2 hk2
        exact ⟨a, b, c, by simp only [List.map_cons]; exact List.mem_cons_of_mem _ d⟩
    · have h1f : (hasKey acc kv.1 || kv.1 == ("text")) = false := by
        simpa using h1
      have hacc : hasKey acc kv.1 = false := by
        rcases Bool.or_eq_false_iff.1 h1f with ⟨a, _⟩
        exact a
      have htext : kv.1 ≠ ("text") := by
        rcases Bool.or_eq_false_iff.1 h1f with ⟨_, b⟩
        intro he
        rw [he] at b
        simp at b
      -- helper for the two "append kv2" branches
      have happend : ∀ (v2 : PyVal), isContainer v2 = false →
          otherLoop (acc ++ [(kv.1, v2)]) items = otherLoop (acc ++ [(kv.1, v2)]) items →
          ∃ ex, otherLoop (acc ++ [(kv.1, v2)]) items = acc ++ ((kv.1, v2) :: ex) ∧
          (∀ kv2 ∈ ((kv.1, v2) :: ex),
            hasKey acc kv2.1 = false ∧ kv2.1 ≠ ("text") ∧ isContainer kv2.2 = false ∧
            kv2.1 ∈ (kv :: items).map Prod.fst) ∧
          (((kv.1, v2) :: ex).map Prod.fst).Nodup := by
        intro v2 hv2 _
        obtain ⟨ex, he, hc, hn⟩ := ih (acc ++ [(kv.1, v2)])
        refine ⟨ex, by rw [he]; simp, ?_, ?_⟩
        · intro kv2 hk2
          rcases List.mem_cons.1 hk2 with rfl | hm
          · exact ⟨hacc, htext, hv2, by simp⟩
          · obtain ⟨a, b, c, d⟩ := hc kv2 hm
            rw [hasKey_append, Bool.or_eq_false_iff] at a
            exact ⟨a.1, b, c, by simp only [List.map_cons]; exact List.mem_cons_of_mem _ d⟩
        · simp only [List.map_cons, List.nodup_cons]
          refine ⟨?_, hn⟩
          intro hmem
          rcases List.mem_map.1 hmem with ⟨kv2, hk2, he2⟩
          obtain ⟨a, _, _, _⟩ := hc kv2 hk2
          rw [hasKey_append, Bool.or_eq_false_iff] at a
          have : hasKey [(kv.1, v2)] kv2.1 = true := by
            simp [hasKey, he2]
          rw [a.2] at this
          cases this
      by_cases hcont : isContainer kv.2 = true
      · by_cases hlen : (pyRepr kv.2).length > 100
        · obtain ⟨ex, he, hc, hn⟩ :=
            happend (PyVal.str ((pyRepr kv.2).take 100 ++ ellipsis)) rfl rfl
          refine ⟨(kv.1, PyVal.str ((pyRepr kv.2).take 100 ++ ellipsis)) :: ex, ?_, hc, hn⟩
          simp only [otherLoop, h1f, Bool.false_eq_true, if_false, hcont, if_true, hlen]
          exact he
        · obtain ⟨ex, he, hc, hn⟩ := ih acc
          refine ⟨ex, ?_, ?_, hn⟩
          · simp only [otherLoop, h1f, Bool.false_eq_true, if_false, hcont, if_true, hlen]
            exact he
          · intro kv2 hk2
            obtain ⟨a, b, c, d⟩ := hc kv2 hk2
            exact ⟨a, b, c, by simp only [List.map_cons]; exact List.mem_cons_of_mem _ d⟩
      · have hcf : isContainer kv.2 = false := by simpa using hcont
        obtain ⟨ex, he, hc, hn⟩ := happend kv.2 hcf rfl
        refine ⟨(kv.1, kv.2) :: ex, ?_, hc, hn⟩
        simp only [otherLoop, h1f, Bool.false_eq_true, if_false, hcf]
        exact he

theorem dedupKeys_nil : dedupKeys ([] : List (String × PyVal)) = [] := by
  simp [dedupKeys]

theorem mem_of_mem_dedupKeys :
    ∀ (n : Nat) (l : List (String × PyVal)), l.length ≤ n →
    ∀ kv ∈ dedupKeys l, kv ∈ l := by
  intro n
  induction n with
  | zero =>
    intro l hl kv hkv
    cases l with
    | nil =>
      rw [dedupKeys_nil] at hkv
      cases hkv
    | cons kv2 rest => simp at hl
  | succ n ih =>
    intro l hl kv hkv
    cases l with
    | nil =>
      rw [dedupKeys_nil] at hkv
      cases hkv
    | cons kv2 rest =>
      simp only [dedupKeys] at hkv
      rcases List.mem_cons.1 hkv with rfl | hm
      · exact List.mem_cons_self _ _
      · have hlen : (rest.filter (fun kv3 => kv3.1 != kv2.1)).length ≤ n :=
          le_trans (List.length_filter_le _ _) (by simpa using hl)
        exact List.mem_cons_of_mem _ (List.mem_of_mem_filter (ih _ hlen kv hm))

theorem dedupKeys_eq_self {l : List (String × PyVal)}
    (h : (l.map Prod.fst).Nodup) : dedupKeys l = l := by
  induction l with
  | nil => exact dedupKeys_nil
  | cons kv rest ih =>
    simp only [List.map_cons, List.nodup_cons] at h
    simp only [dedupKeys]
    have hf : rest.filter (fun kv2 => kv2.1 != kv.1) = rest := by
      apply List.filter_eq_self.2
      intro kv2 hk2
      have hne : kv2.1 ≠ kv.1 := by
        intro he
        exact h.1 (he ▸ List.mem_map.2 ⟨kv2, hk2, rfl⟩)
      simp [hne]
    rw [hf, ih h.2]

/-- A value produced by the `text` compression branch is a fixed point
of that branch: re-truncating a truncated text changes nothing. -/
theorem compressTextVal_idem {t t2 : PyVal}
    (h : compressTextVal t = Except.ok t2) :
    compressTextVal t2 = Except.ok t2 := by
  cases t with
  | str s =>
    simp only [compressTextVal] at h
    injection h with h2
    subst h2
    by_cases hl : s.length > 300
    · rw [if_pos hl]
      simp only [compressTextVal]
      have hell : ellipsis.length = 3 := rfl
      have htk : (s.take 300).length = 300 := by
        rw [List.length_take]
        omega
      have hlen : (s.take 300 ++ ellipsis).length = 303 := by
        rw [List.length_append, htk, hell]
      rw [hlen]
      have h303 : (303 : Nat) > 300 := by omega
      rw [if_pos h303, List.take_left' htk]
    · rw [if_neg hl]
      simp [compressTextVal, hl]
  | list xs =>
    simp only [compressTextVal] at h
    by_cases hl : xs.length > 300
    · rw [if_pos hl] at h
      cases h
    · rw [if_neg hl] at h
      injection h with h2
      subst h2
      simp [compressTextVal, hl]
  | dict kvs =>
    simp only [compressTextVal] at h
    by_cases hl : (dedupKeys kvs).length > 300
    · rw [if_pos hl] at h
      cases h
    · rw [if_neg hl] at h
      injection h with h2
      subst h2
      simp [compressTextVal, hl]
  | int n => simp [compressTextVal] at h
  | bool b => simp [compressTextVal] at h
  | none => simp [compressTextVal] at h

/-- The keys of the seven preserved metadata fields are distinct and do
not include `text`. -/
theorem preserve_keys_wf :
    preserve_keys.Nodup ∧ ("text") ∉ preserve_keys := by
  constructor
  · decide
  · decide

theorem otherLoop_append_items :
    ∀ (xs ys acc : List (String × PyVal)),
    otherLoop acc (xs ++ ys) = otherLoop (otherLoop acc xs) ys := by
  intro xs
  induction xs with
  | nil => intro ys acc; rfl
  | cons kv xs ih =>
    intro ys acc
    simp only [List.cons_append, otherLoop]
    split_ifs <;> exact ih _ _

theorem exists_of_hasKey {l : List (String × PyVal)} {k : String}
    (h : hasKey l k = true) : ∃ kv ∈ l, kv.1 = k := by
  obtain ⟨kv, hm, hb⟩ := List.any_eq_true.1 h
  exact ⟨kv, hm, eq_of_beq hb⟩

theorem hasKey_iff_mem_keys {l : List (String × PyVal)} {k : String} :
    hasKey l k = true ↔ k ∈ l.map Prod.fst := by
  constructor
  · intro h
    obtain ⟨kv, hm, he⟩ := exists_of_hasKey h
    exact he ▸ List.mem_map.2 ⟨kv, hm, rfl⟩
  · intro h
    obtain ⟨kv, hm, he⟩ := List.mem_map.1 h
    exact he ▸ hasKey_of_mem hm

/-- The final compressor loop maps a canonical dictionary to itself:
the text binding and the preserved bindings are skipped, the scalar
leftovers are re-appended verbatim. -/
theorem compress_canon_core (tp pp ex : List (String × PyVal))
    (htp : tp = [] ∨ ∃ t, tp = [(("text" : String), t)])
    (hppk : ∀ kv ∈ pp, kv.1 ∈ preserve_keys)
    (hex : ∀ kv ∈ ex, kv.1 ≠ ("text") ∧ kv.1 ∉ preserve_keys ∧ isContainer kv.2 = false)
    (hexnd : (ex.map Prod.fst).Nodup) :
    otherLoop (tp ++ pp) (tp ++ pp ++ ex) = (tp ++ pp) ++ ex := by
  have h1 : otherLoop (tp ++ pp) tp = tp ++ pp := by
    apply otherLoop_skip
    intro kv hkv
    rcases htp with rfl | ⟨t, rfl⟩
    · cases hkv
    · rcases List.mem_singleton.1 hkv with rfl
      exact Or.inr rfl
  have h2 : otherLoop (tp ++ pp) pp = tp ++ pp := by
    apply otherLoop_skip
    intro kv hkv
    exact Or.inl (hasKey_of_mem (List.mem_append_right _ hkv))
  have h3 : otherLoop (tp ++ pp) ex = (tp ++ pp) ++ ex := by
    apply otherLoop_verbatim ex (tp ++ pp) hexnd
    intro kv hkv
    obtain ⟨g1, g2, g3⟩ := hex kv hkv
    refine ⟨?_, g1, g3⟩
    rw [hasKey_append, Bool.or_eq_false_iff]
    constructor
    · rcases htp with rfl | ⟨t, rfl⟩
      · rfl
      · have : (("text" : String) == kv.1) = false := by
          simp
          exact fun he => g1 he.symm
        simp [hasKey, this]
    · by_cases hp : hasKey pp kv.1 = true
      · obtain ⟨kv2, hm2, he2⟩ := exists_of_hasKey hp
        exact absurd (he2 ▸ hppk kv2 hm2) g2
      · simpa using hp
  calc otherLoop (tp ++ pp) (tp ++ pp ++ ex)
      = otherLoop (otherLoop (tp ++ pp) (tp ++ pp)) ex := by
        rw [otherLoop_append_items]
    _ = otherLoop (otherLoop (otherLoop (tp ++ pp) tp) pp) ex := by
        rw [otherLoop_append_items]
    _ = (tp ++ pp) ++ ex := by rw [h1, h2, h3]

/-- A dictionary holding only a short `text` string is canonical. -/
theorem canon_single_text {s2 : List Char} (hs : s2.length ≤ 300) :
    Canon [(("text" : String), PyVal.str s2)] := by
  refine ⟨[(("text" : String), PyVal.str s2)], [], ?_,
    Or.inr ⟨PyVal.str s2, rfl, ?_⟩, ?_, ?_, ?_⟩
  · have hpp : pairsOf [(("text" : String), PyVal.str s2)] preserve_keys = [] := by
      apply pairsOf_eq_nil
      intro k hk
      rw [lookup1_eq_none]
      intro kv hkv
      rcases List.mem_singleton.1 hkv with rfl
      intro he
      apply preserve_keys_wf.2
      rw [show (("text" : String), PyVal.str s2).1 = ("text" : String) from rfl] at he
      exact he ▸ hk
    rw [hpp]
    simp
  · simp only [compressTextVal, if_neg (by omega : ¬ s2.length > 300)]
  · simp
  · simp
  · simp

/-- Compression of a non-dict value (the shape behind claim C10). -/
theorem compress_message_content_nondict (v : PyVal) (h : isDict v = false) :
    compress_message_content v = Except.ok (PyVal.dict
      [(("text" : String), PyVal.str
          (if (pyStr v).length > 200 then (pyStr v).take 200 ++ ellipsis
           else pyStr v))]) := by
  cases v with
  | dict kvs => simp [isDict] at h
  | str s => rfl
  | int n => rfl
  | bool b => rfl
  | none => rfl
  | list xs => rfl

/-- The truncated-or-plain text stored for a non-dict value is at most
203 characters. -/
theorem nondict_text_short (v : PyVal) :
    (if (pyStr v).length > 200 then (pyStr v).take 200 ++ ellipsis
     else pyStr v).length ≤ 300 := by
  split
  · rw [List.length_append, List.length_take]
    have he : ellipsis.length = 3 := rfl
    omega
  · omega

/-- Every dictionary of canonical shape is a fixed point of the
compressor. -/
theorem compress_canon_fixed {out : List (String × PyVal)} (h : Canon out) :
    compress_message_content (PyVal.dict out) = Except.ok (PyVal.dict out) := by
  obtain ⟨tp, ex, hout, htp, hex, hexnd, hnd⟩ := h
  have htppk : ∀ kv ∈ pairsOf out preserve_keys, kv.1 ∈ preserve_keys :=
    fun kv hkv => (mem_pairsOf hkv).1
  have hcore := compress_canon_core tp (pairsOf out preserve_keys) ex
    (htp.imp id (fun ht => ⟨ht.choose, ht.choose_spec.1⟩)) htppk hex hexnd
  rcases htp with rfl | ⟨t, rfl, hfix⟩
  · have hlook : lookup1 out ("text") = Option.none := by
      rw [lookup1_eq_none]
      intro kv hkv
      rw [hout] at hkv
      simp only [List.nil_append] at hkv
      rcases List.mem_append.1 hkv with hm | hm
      · intro he
        exact preserve_keys_wf.2 (he ▸ htppk kv hm)
      · exact (hex kv hm).1
    simp only [compress_message_content, hlook, Except.map]
    rw [preserveLoop_eq, dedupKeys_eq_self hnd]
    nth_rewrite 2 [hout]
    rw [hcore, ← hout]
  · have hlook : lookup1 out ("text") = Option.some t := by
      rw [hout, lookup1_append, lookup1_append]
      simp [lookup1_cons]
    simp only [compress_message_content, hlook, hfix, Except.map]
    rw [preserveLoop_eq, dedupKeys_eq_self hnd]
    nth_rewrite 2 [hout]
    rw [hcore, ← hout]

/-- The dictionary produced by compressing a dict input is canonical. -/
theorem compress_dict_canon_aux (kvs c1 : List (String × PyVal))
    (hc1 : c1 = [] ∨ ∃ t, c1 = [(("text" : String), t)] ∧
      compressTextVal t = Except.ok t) :
    Canon (otherLoop (c1 ++ pairsOf kvs preserve_keys) (dedupKeys kvs)) := by
  obtain ⟨ex, he, hc, hn⟩ := otherLoop_spec (dedupKeys kvs) (c1 ++ pairsOf kvs preserve_keys)
  rw [he]
  have hmemkvs : ∀ {k : String}, k ∈ (dedupKeys kvs).map Prod.fst →
      hasKey kvs k = true := by
    intro k hd
    rw [hasKey_iff_mem_keys]
    obtain ⟨kv2, hm2, he3⟩ := List.mem_map.1 hd
    have hm3 := mem_of_mem_dedupKeys kvs.length kvs le_rfl kv2 hm2
    exact he3 ▸ List.mem_map.2 ⟨kv2, hm3, rfl⟩
  refine ⟨c1, ex, ?_, hc1.imp id (fun ht => ⟨ht.choose, ht.choose_spec.1,
    ht.choose_spec.2⟩), ?_, hn, ?_⟩
  · have hcongr : pairsOf ((c1 ++ pairsOf kvs preserve_keys) ++ ex) preserve_keys =
        pairsOf kvs preserve_keys := by
      apply pairsOf_congr
      intro k hk
      have hkt : k ≠ ("text") := fun he2 => preserve_keys_wf.2 (he2 ▸ hk)
      rw [lookup1_append, lookup1_append]
      have hl1 : lookup1 c1 k = Option.none := by
        rcases hc1 with rfl | ⟨t, rfl, _⟩
        · rfl
        · rw [lookup1_eq_none]
          intro kv hkv
          rcases List.mem_singleton.1 hkv with rfl
          exact fun hh => hkt (hh.symm)
      rw [hl1]
      cases hkv : lookup1 kvs k with
      | some v =>
        have hp : lookup1 (pairsOf kvs preserve_keys) k = Option.some v := by
          rw [lookup1_pairsOf_of_mem hk]
          exact hkv
        rw [hp]
      | none =>
        have hp : lookup1 (pairsOf kvs preserve_keys) k = Option.none :=
          lookup1_pairsOf_of_none hkv preserve_keys
        rw [hp]
        rw [lookup1_eq_none]
        intro kv hkvm he2
        obtain ⟨-, -, -, hd⟩ := hc kv hkvm
        have hkk := hmemkvs (he2 ▸ hd)
        rw [hasKey_eq_isSome, hkv] at hkk
        cases hkk
    rw [hcongr]
  · intro kv hkv
    obtain ⟨g1, g2, g3, g4⟩ := hc kv hkv
    refine ⟨g2, ?_, g3⟩
    intro hmem
    have hkk := hmemkvs g4
    rw [hasKey_eq_isSome] at hkk
    cases hl : lookup1 kvs kv.1 with
    | none =>
      rw [hl] at hkk
      cases hkk
    | some v =>
      have hp : lookup1 (pairsOf kvs preserve_keys) kv.1 = Option.some v := by
        rw [lookup1_pairsOf_of_mem hmem]
        exact hl
      have hp2 : hasKey (c1 ++ pairsOf kvs preserve_keys) kv.1 = true := by
        rw [hasKey_append]
        have hp3 : hasKey (pairsOf kvs preserve_keys) kv.1 = true := by
          rw [hasKey_eq_isSome, hp]
          rfl
        simp [hp3]
      rw [g1] at hp2
      cases hp2
  · rw [List.map_append, List.map_append]
    refine List.nodup_append.2 ⟨List.nodup_append.2
      ⟨?_, keys_pairsOf_nodup preserve_keys_wf.1 kvs, ?_⟩, hn, ?_⟩
    · rcases hc1 with rfl | ⟨t, rfl, _⟩ <;> simp
    · intro a ha hb
      rcases hc1 with rfl | ⟨t, rfl, _⟩
      · cases ha
      · have ha2 : a = ("text") := by
          simpa using ha
        subst ha2
        obtain ⟨kv2, hm2, he2⟩ := List.mem_map.1 hb
        exact preserve_keys_wf.2 (he2 ▸ (mem_pairsOf hm2).1)
    · intro a ha hb
      obtain ⟨kv2, hm2, he2⟩ := List.mem_map.1 hb
      obtain ⟨g1, -, -, -⟩ := hc kv2 hm2
      have hp2 : hasKey (c1 ++ pairsOf kvs preserve_keys) kv2.1 = true := by
        rw [hasKey_iff_mem_keys, List.map_append]
        exact he2 ▸ ha
      rw [g1] at hp2
      cases hp2

/-- Every successful compression result is a canonical dictionary. -/
theorem compress_canon {x y : PyVal}
    (h : compress_message_content x = Except.ok y) :
    ∃ out, y = PyVal.dict out ∧ Canon out := by
  cases x with
  | str s =>
    rw [compress_message_content_nondict (PyVal.str s) rfl] at h
    injection h with h2
    exact ⟨_, h2.symm, canon_single_text (nondict_text_short (PyVal.str s))⟩
  | int n =>
    rw [compress_message_content_nondict (PyVal.int n) rfl] at h
    injection h with h2
    exact ⟨_, h2.symm, canon_single_text (nondict_text_short (PyVal.int n))⟩
  | bool b =>
    rw [compress_message_content_nondict (PyVal.bool b) rfl] at h
    injection h with h2
    exact ⟨_, h2.symm, canon_single_text (nondict_text_short (PyVal.bool b))⟩
  | none =>
    rw [compress_message_content_nondict PyVal.none rfl] at h
    injection h with h2
    exact ⟨_, h2.symm, canon_single_text (nondict_text_short PyVal.none)⟩
  | list xs =>
    rw [compress_message_content_nondict (PyVal.list xs) rfl] at h
    injection h with h2
    exact ⟨_, h2.symm, canon_single_text (nondict_text_short (PyVal.list xs))⟩
  | dict kvs =>
    simp only [compress_message_content] at h
    cases hlt : lookup1 kvs ("text") with
    | none =>
      rw [hlt] at h
      simp only [Except.map] at h
      rw [preserveLoop_eq] at h
      injection h with h2
      exact ⟨_, h2.symm, compress_dict_canon_aux kvs [] (Or.inl rfl)⟩
    | some t =>
      rw [hlt] at h
      have h3 : Except.map
          (fun c1 => PyVal.dict (otherLoop (preserveLoop kvs preserve_keys c1)
            (dedupKeys kvs)))
          (Except.map (fun t2 => [(("text" : String), t2)]) (compressTextVal t)) =
          Except.ok y := h
      clear h
      have h := h3
      clear h3
      cases hct : compressTextVal t with
      | error e =>
        rw [hct] at h
        simp only [Except.map] at h
        cases h
      | ok t2 =>
        rw [hct] at h
        simp only [Except.map] at h
        rw [preserveLoop_eq] at h
        injection h with h2
        exact ⟨_, h2.symm, compress_dict_canon_aux kvs [(("text" : String), t2)]
          (Or.inr ⟨t2, rfl, compressTextVal_idem hct⟩)⟩

/-- C5: message-content compression is idempotent. In the `Except`
model this covers both outcomes: a successful compression result
recompresses to itself, and a raising input raises identically, so
`compress ∘ compress = compress` as Kleisli composition. -/
theorem C5_compression_idempotent (x : PyVal) :
    (compress_message_content x).bind compress_message_content =
      compress_message_content x := by
  cases h : compress_message_content x with
  | error e => rfl
  | ok y =>
    obtain ⟨out, rfl, hcanon⟩ := compress_canon h
    show compress_message_content (PyVal.dict out) = Except.ok (PyVal.dict out)
    exact compress_canon_fixed hcanon

end CommsAgent
